import Mathlib

/-!
Shallow embedding of the core of the `digital_cashier` conversational
ordering system (Python), covering:

* `src/services/resolution_policies.py` — `PolicyEngine.resolve`
* `src/services/order_processing_agent.py` — `_calculate_totals`,
  `_aggregate_items`, `_parse_quantity`, `_process_items_directly`,
  `remove_item`, `submit_order`
* `src/services/orchestrator.py` — the confidence gate / unclear-intent
  escalation ladder and the first-turn welcome check in `_route_to_agent`
* `src/services/issue_resolution_agent.py` — the policy invocation made by
  `handle_complaint`

Money and confidence scores are modelled as rationals (the Python code uses
floats; counterexamples below stay away from representation-sensitive
values).  Python's `round(x, 2)` (round half to even) is modelled by
`round2`.  The LLM-backed entity resolver (`_find_menu_item`) and the
similar-item suggester are external effects and are passed in as oracle
functions.
-/

/-- Issue categories (`src/models/enums.py`, `IssueType`). -/
inductive IssueType
  | missingItem
  | wrongOrder
  | lateDelivery
  | quality
  | refundRequest
deriving DecidableEq, Repr

/-- Conversation states (`src/models/enums.py`, `ConversationState`). -/
inductive ConversationState
  | greeting
  | browsingMenu
  | buildingOrder
  | confirmingOrder
  | trackingOrder
  | resolvingIssue
  | ended
deriving DecidableEq, Repr

/-- Intent labels (`src/models/enums.py`, `IntentType`). -/
inductive IntentType
  | greeting
  | inquiry
  | ordering
  | complaint
  | tracking
  | farewell
  | cancel
  | remove
  | queryOrder
  | confirmOrder
  | escalate
  | unclear
deriving DecidableEq, Repr

/-- Result of a policy decision (`src/models/schemas.py`, `PolicyResolution`).
The display string `resolution_message` is presentation only and is omitted. -/
structure PolicyResolution where
  canAutoResolve : Bool
  compensationAmount : Option ℚ
  requiresEscalation : Bool
deriving DecidableEq, Repr

namespace PolicyEngine

/-- `PolicyEngine.resolve` (`src/services/resolution_policies.py`, lines 9-84).
`maxAutoRefund` is the constructor parameter `max_auto_refund`
(default `50.0`); `orderTotal` and `delayMinutes` default to `0` at the
call sites that omit them. -/
def resolve (maxAutoRefund : ℚ) (issueType : IssueType)
    (orderTotal : ℚ) (delayMinutes : ℤ) : PolicyResolution :=
  match issueType with
  | .missingItem =>
      if orderTotal ≤ maxAutoRefund then
        { canAutoResolve := true
          compensationAmount := some orderTotal
          requiresEscalation := false }
      else
        { canAutoResolve := false
          compensationAmount := none
          requiresEscalation := true }
  | .lateDelivery =>
      if delayMinutes > 30 then
        { canAutoResolve := true
          compensationAmount := some (min (orderTotal * (2/10)) 25)
          requiresEscalation := false }
      else
        { canAutoResolve := true
          compensationAmount := some 0
          requiresEscalation := false }
  | .wrongOrder =>
      if orderTotal ≤ 75 then
        { canAutoResolve := true
          compensationAmount := some orderTotal
          requiresEscalation := false }
      else
        { canAutoResolve := false
          compensationAmount := none
          requiresEscalation := true }
  | .quality =>
      if orderTotal ≤ 30 then
        { canAutoResolve := true
          compensationAmount := some (orderTotal * (5/10))
          requiresEscalation := false }
      else
        { canAutoResolve := false
          compensationAmount := none
          requiresEscalation := true }
  | .refundRequest =>
      { canAutoResolve := false
        compensationAmount := none
        requiresEscalation := true }

end PolicyEngine

/-- The policy invocation made by `IssueResolutionAgent.handle_complaint`
(`src/services/issue_resolution_agent.py`, lines 90-93): the agent calls
`self.policy_engine.resolve(issue_type=issue_type, order_total=order.total)`
with the default `PolicyEngine()` (so `max_auto_refund = 50`) and without a
`delay_minutes` argument, which therefore takes its default `0`. -/
def handleComplaintPolicy (issueType : IssueType) (orderTotal : ℚ) :
    PolicyResolution :=
  PolicyEngine.resolve 50 issueType orderTotal 0

/-! ## Monetary rounding

Python's builtin `round(x, 2)` rounds half to even.  `roundHalfEven` is that
rounding on rationals; `round2` applies it at two decimal places. -/

/-- Round a rational to the nearest integer, ties to even
(the semantics of Python's builtin `round`). -/
def roundHalfEven (q : ℚ) : ℤ :=
  let n := ⌊q⌋
  let frac := q - n
  if frac < 1/2 then n
  else if 1/2 < frac then n + 1
  else if n % 2 = 0 then n else n + 1

/-- Python `round(q, 2)`. -/
def round2 (q : ℚ) : ℚ :=
  (roundHalfEven (q * 100) : ℚ) / 100

/-! ## Order draft data model

A draft line item is the dict built in `_process_items_directly`
(`order_processing_agent.py`, lines 235-242): catalog id (stored as a
string, `str(menu_item.id)`), names, unit price, category, quantity. -/

/-- A catalog entry (`src/models/database.py`, `MenuItem`), as read by the
order processing agent: id, English name, optional Arabic name, price,
category, availability flag. -/
structure MenuItem where
  id : String
  name : String
  arabicName : Option String
  price : ℚ
  category : String
  isAvailable : Bool
deriving DecidableEq, Repr

/-- A draft line item (the dict appended in `_process_items_directly`). -/
structure LineItem where
  id : String
  name : String
  arabicName : String
  price : ℚ
  category : String
  quantity : ℤ
deriving DecidableEq, Repr

/-- The order draft JSON stored in `session.current_order_draft`:
a list of line items plus the four monetary fields written by
`_calculate_totals`. -/
structure Draft where
  items : List LineItem
  subtotal : ℚ
  tax : ℚ
  deliveryFee : ℚ
  total : ℚ
deriving DecidableEq, Repr

/-- The canonical empty-draft shape written by `remove_item` when the item
list becomes empty (`order_processing_agent.py`, line 545). -/
def emptyDraft : Draft :=
  { items := [], subtotal := 0, tax := 0, deliveryFee := 0, total := 0 }

/-- `_calculate_totals` (`order_processing_agent.py`, lines 947-958):
`subtotal = Σ price×quantity`, `tax = subtotal * 0.15`,
`delivery_fee = 0.0`, `total = subtotal + tax + delivery_fee`; the returned
dict carries `round(subtotal, 2)`, `round(tax, 2)`, `delivery_fee`,
`round(total, 2)`. -/
def calculateTotals (items : List LineItem) : ℚ × ℚ × ℚ × ℚ :=
  let subtotal := (items.map (fun it => it.price * (it.quantity : ℚ))).sum
  let tax := subtotal * (15/100)
  let deliveryFee : ℚ := 0
  let total := subtotal + tax + deliveryFee
  (round2 subtotal, round2 tax, deliveryFee, round2 total)

/-- Install the result of `_calculate_totals` into a draft
(`order_draft.update(totals)`). -/
def withTotals (items : List LineItem) : Draft :=
  let t := calculateTotals items
  { items := items, subtotal := t.1, tax := t.2.1, deliveryFee := t.2.2.1
    total := t.2.2.2 }

/-- Add `q` to the quantity of the first line item whose id is `i`
(the in-place mutation of the dict found by `next(...)` in the Python code;
draft item ids are unique for every reachable draft, matching the single
dict entry the code mutates). -/
def bumpFirst (i : String) (q : ℤ) : List LineItem → List LineItem
  | [] => []
  | it :: rest =>
      if it.id = i then { it with quantity := it.quantity + q } :: rest
      else it :: bumpFirst i q rest

/-- Subtract `q` from the quantity of the first line item whose id is `i`
(`existing_item["quantity"] -= quantity_to_remove`). -/
def decFirst (i : String) (q : ℤ) : List LineItem → List LineItem
  | [] => []
  | it :: rest =>
      if it.id = i then { it with quantity := it.quantity - q } :: rest
      else it :: decFirst i q rest

/-- Delete the first line item whose id is `i`
(`order_draft["items"].remove(existing_item)`). -/
def removeFirst (i : String) : List LineItem → List LineItem
  | [] => []
  | it :: rest => if it.id = i then rest else it :: removeFirst i rest

/-- One step of `_aggregate_items`: merge `item` into the accumulator,
summing quantities when an entry with the same id already exists
(the Python code keys a dict by `item["id"]`, preserving insertion order). -/
def insertAgg (acc : List LineItem) (item : LineItem) : List LineItem :=
  if acc.any (fun a => a.id = item.id) then bumpFirst item.id item.quantity acc
  else acc ++ [item]

/-- `_aggregate_items` (`order_processing_agent.py`, lines 936-945). -/
def aggregateItems (items : List LineItem) : List LineItem :=
  items.foldl insertAgg []

/-- `_parse_quantity` (`order_processing_agent.py`, lines 441-465) on an
integer input: clamp to `[1, 50]`. -/
def parseQuantity (q : ℤ) : ℤ :=
  max 1 (min 50 q)

/-! ## Add path (`_process_items_directly`)

The entity resolver `_find_menu_item` is LLM-backed and is passed in as an
oracle `String → Option (MenuItem × ℚ)` (the Python function returns
`(None, 0.0)` or a matched item with a confidence score), as is the
similar-item suggester `_find_similar_items`. -/

/-- An item mention handed to the add/remove paths: the
`{"name": ..., "quantity": ...}` dicts taken from the classifier entities
or from LLM extraction. -/
structure Mention where
  name : String
  quantity : ℤ
deriving DecidableEq, Repr

/-- The line-item dict appended for a freshly accepted menu item
(`order_processing_agent.py`, lines 235-242); `arabic_name` falls back to
the English name (`menu_item.arabic_name or menu_item.name`). -/
def lineItemOf (mi : MenuItem) (q : ℤ) : LineItem :=
  { id := mi.id, name := mi.name, arabicName := mi.arabicName.getD mi.name
    price := mi.price, category := mi.category, quantity := q }

/-- Display name used in response bookkeeping
(`menu_item.arabic_name or menu_item.name`). -/
def displayName (mi : MenuItem) : String :=
  mi.arabicName.getD mi.name

/-- Loop state of `_process_items_directly`: the working item list and the
`found_items` / `not_found` / `suggestions` bookkeeping lists (the formatted
response strings are abstracted to the underlying names). -/
structure AddLoopState where
  items : List LineItem
  foundItems : List String
  notFound : List String
  suggestions : List String
deriving DecidableEq, Repr

/-- One iteration of the mention loop of `_process_items_directly`
(`order_processing_agent.py`, lines 209-255): confidence ≥ 0.85 adds the
item (merge by id or append); 0.6 ≤ confidence < 0.85 records a
did-you-mean suggestion and the mention as not found; otherwise the
mention is not found and up to 2 similar-item suggestions are added. -/
def processMentionStep (resolver : String → Option (MenuItem × ℚ))
    (similar : String → List String) (st : AddLoopState) (m : Mention) :
    AddLoopState :=
  match resolver m.name with
  | some (mi, conf) =>
      if 85/100 ≤ conf then
        let q := parseQuantity m.quantity
        let items :=
          if st.items.any (fun it => it.id == mi.id) then bumpFirst mi.id q st.items
          else st.items ++ [lineItemOf mi q]
        { st with items := items, foundItems := st.foundItems ++ [displayName mi] }
      else if 6/10 ≤ conf then
        { st with suggestions := st.suggestions ++ [displayName mi]
                  notFound := st.notFound ++ [m.name] }
      else
        { st with notFound := st.notFound ++ [m.name]
                  suggestions := st.suggestions ++ (similar m.name).take 2 }
  | none =>
      { st with notFound := st.notFound ++ [m.name]
                suggestions := st.suggestions ++ (similar m.name).take 2 }

/-- Result of `_process_items_directly`: the success flag, the session's
persisted draft after the call (`session.current_order_draft`), and the
bookkeeping lists used to build the response. -/
structure AddOutcome where
  success : Bool
  sessionDraft : Option Draft
  foundItems : List String
  notFound : List String
  suggestions : List String
deriving DecidableEq, Repr

/-- `_process_items_directly` (`order_processing_agent.py`, lines 197-292):
load the draft (aggregating duplicate ids), process each mention through
the confidence tiers, fail without saving when nothing was added and
something was not found, otherwise recompute totals and save the draft. -/
def processItemsDirectly (resolver : String → Option (MenuItem × ℚ))
    (similar : String → List String) (mentions : List Mention)
    (sessionDraft : Option Draft) : AddOutcome :=
  let startItems :=
    match sessionDraft with
    | none => []
    | some d => aggregateItems d.items
  let st := mentions.foldl (processMentionStep resolver similar)
    { items := startItems, foundItems := [], notFound := [], suggestions := [] }
  if st.foundItems = [] ∧ st.notFound ≠ [] then
    { success := false, sessionDraft := sessionDraft
      foundItems := st.foundItems, notFound := st.notFound
      suggestions := st.suggestions }
  else
    { success := true, sessionDraft := some (withTotals st.items)
      foundItems := st.foundItems, notFound := st.notFound
      suggestions := st.suggestions }

/-! ## Remove path (`remove_item`) -/

/-- Loop state of the removal loop in `remove_item`. -/
structure RemoveLoopState where
  items : List LineItem
  removed : List String
  notFound : List String
deriving DecidableEq, Repr

/-- One iteration of the removal loop (`order_processing_agent.py`,
lines 502-531): resolve the mention; when the matched catalog id is in the
draft, delete the line item entirely if its quantity is at most the
requested removal quantity, otherwise decrement it. -/
def removeMentionStep (resolver : String → Option (MenuItem × ℚ))
    (st : RemoveLoopState) (m : Mention) : RemoveLoopState :=
  match resolver m.name with
  | some (mi, _conf) =>
      match st.items.find? (fun it => it.id == mi.id) with
      | some existing =>
          let q := parseQuantity m.quantity
          if existing.quantity ≤ q then
            { st with items := removeFirst mi.id st.items
                      removed := st.removed ++ [displayName mi] }
          else
            { st with items := decFirst mi.id q st.items
                      removed := st.removed ++ [displayName mi] }
      | none => { st with notFound := st.notFound ++ [displayName mi] }
  | none => { st with notFound := st.notFound ++ [m.name] }

/-- Result of `remove_item`: success flag, the compound-message retry flag,
and the `order_draft` value carried in the returned dict (`remove_item`
itself does not persist the draft; the orchestrator does). -/
structure RemoveOutcome where
  success : Bool
  shouldRetryAsOrder : Bool
  resultDraft : Option Draft
  removed : List String
  notFound : List String
deriving DecidableEq, Repr

/-- `remove_item` (`order_processing_agent.py`, lines 467-556).
`hasAddKeywords` abstracts the lexical add-cue check on the message;
`mentions` is the effective item list (entities or LLM extraction). -/
def removeItem (resolver : String → Option (MenuItem × ℚ))
    (hasAddKeywords : Bool) (mentions : List Mention)
    (sessionDraft : Option Draft) : RemoveOutcome :=
  match sessionDraft with
  | none =>
      { success := false, shouldRetryAsOrder := hasAddKeywords
        resultDraft := none, removed := [], notFound := [] }
  | some d =>
      if mentions = [] then
        { success := false, shouldRetryAsOrder := false
          resultDraft := none, removed := [], notFound := [] }
      else
        let st := mentions.foldl (removeMentionStep resolver)
          { items := d.items, removed := [], notFound := [] }
        if st.removed = [] then
          { success := false, shouldRetryAsOrder := false
            resultDraft := none, removed := st.removed, notFound := st.notFound }
        else
          let d2 := if st.items = [] then emptyDraft else withTotals st.items
          { success := true, shouldRetryAsOrder := false
            resultDraft := some d2, removed := st.removed, notFound := st.notFound }

/-! ## Submission path (`submit_order`) -/

/-- A persisted order line (`OrderItem` rows written by `submit_order`). -/
structure OrderItem where
  menuItemId : String
  quantity : ℤ
  unitPrice : ℚ
deriving DecidableEq, Repr

/-- The order row written by `submit_order` together with its lines
(order number, timestamps and status bookkeeping are omitted). -/
structure PersistedOrder where
  subtotal : ℚ
  tax : ℚ
  deliveryFee : ℚ
  total : ℚ
  items : List OrderItem
deriving DecidableEq, Repr

/-- Outcome of `submit_order`: success flag, the session draft after the
call, and the order persisted by the transaction (if any). -/
structure SubmitOutcome where
  success : Bool
  sessionDraft : Option Draft
  createdOrder : Option PersistedOrder
deriving DecidableEq, Repr

/-- The re-validation query in `submit_order` (lines 348-351): the
catalog has an entry with this id that is still available. -/
def availableInCatalog (catalog : List MenuItem) (i : String) : Bool :=
  catalog.any (fun mi => mi.id == i && mi.isAvailable)

/-- `submit_order` (`order_processing_agent.py`, lines 294-431): fail on an
absent or empty draft; re-validate every line item's catalog reference and
roll the whole transaction back on the first stale one (leaving the draft
untouched); on success persist the order with all line items and clear the
draft.  The Python loop aborts at the first unavailable item and calls
`rollback()`, whose net effect is the all-items check below. -/
def submitOrder (catalog : List MenuItem) (sessionDraft : Option Draft) :
    SubmitOutcome :=
  match sessionDraft with
  | none => { success := false, sessionDraft := none, createdOrder := none }
  | some draft =>
      if draft.items = [] then
        { success := false, sessionDraft := some draft, createdOrder := none }
      else if draft.items.all (fun it => availableInCatalog catalog it.id) then
        { success := true, sessionDraft := none
          createdOrder := some
            { subtotal := draft.subtotal, tax := draft.tax
              deliveryFee := draft.deliveryFee, total := draft.total
              items := draft.items.map fun it =>
                { menuItemId := it.id, quantity := it.quantity
                  unitPrice := it.price } } }
      else
        { success := false, sessionDraft := some draft, createdOrder := none }

/-! ## Orchestrator: confidence gate, escalation ladder, routing -/

/-- The three rungs of the clarification ladder in `_handle_unclear_intent`
(`orchestrator.py`, lines 193-322): counter 1 → context-aware hint,
2 → directive prompt, 3 and beyond → offer to transfer to a human. -/
inductive ClarifyTier
  | contextHint
  | directivePrompt
  | offerHumanTransfer
deriving DecidableEq, Repr

/-- Which clarification message `_handle_unclear_intent` picks for a given
(already incremented) unclear counter. -/
def clarifyTier (unclearCount : ℕ) : ClarifyTier :=
  if unclearCount = 1 then .contextHint
  else if unclearCount = 2 then .directivePrompt
  else .offerHumanTransfer

/-- The session fields touched by the confidence gate: the unclear-intent
counter and the conversation state. -/
structure SessionCore where
  unclearCount : ℕ
  convState : ConversationState
deriving DecidableEq, Repr

/-- What the gate produced: a clarification response or a hand-off to
intent routing. -/
inductive GateResult
  | unclear (tier : ClarifyTier)
  | routed
deriving DecidableEq, Repr

/-- `settings.escalation_threshold` default (`src/config.py`, line 19). -/
def escalationThreshold : ℚ := 6/10

/-- The confidence gate of `_process_simple_query` (`orchestrator.py`,
lines 171-177): confidence below the threshold increments the unclear
counter and returns the ladder message for the new count, leaving the
conversation state untouched; otherwise the counter resets to 0 and the
message is routed. -/
def confidenceGateStep (threshold : ℚ) (conf : ℚ) (s : SessionCore) :
    SessionCore × GateResult :=
  if conf < threshold then
    ({ s with unclearCount := s.unclearCount + 1 }
     , .unclear (clarifyTier (s.unclearCount + 1)))
  else
    ({ s with unclearCount := 0 }, .routed)

/-! ## First-turn welcome check (`_route_to_agent`) -/

/-- One history entry (role, content); timestamps are omitted. -/
structure HistMsg where
  role : String
  content : String
deriving DecidableEq, Repr

/-- `ContextManager.max_history_messages` (`context_manager.py`, line 31). -/
def maxHistoryMessages : ℕ := 20

/-- `ContextManager.add_message_to_history` (`context_manager.py`,
lines 127-182): empty content is not appended; otherwise append and, when
over the cap, keep the first message plus the most recent `cap - 1`
(the 2000-character truncation of long contents is presentation only
and omitted). -/
def addMessageToHistory (history : List HistMsg) (role content : String) :
    List HistMsg :=
  if content = "" then history
  else
    let h := history ++ [{ role := role, content := content }]
    if maxHistoryMessages < h.length then
      h.take 1 ++ h.drop (h.length - (maxHistoryMessages - 1))
    else h

/-- `ContextManager.get_conversation_history` (`context_manager.py`,
lines 201-208): `history[-limit:] if limit and len(history) > limit else
history`. -/
def getConversationHistory (history : List HistMsg) (limit : ℕ) :
    List HistMsg :=
  if limit ≠ 0 ∧ limit < history.length then
    history.drop (history.length - limit)
  else history

/-- The reply categories of `_route_to_agent` (`orchestrator.py`,
lines 324-777); agent-internal content is opaque here, only the branch
taken matters. -/
inductive RouteReply
  | welcome
  | greetingReply
  | inquiryReply
  | orderingReply
  | complaintReply
  | trackingReply
  | removeReply
  | queryOrderReply
  | confirmOrderReply
  | cancelReply
  | escalateReply
  | farewellReply
  | fallbackReply
deriving DecidableEq, Repr

/-- The dispatch skeleton of `_route_to_agent` (`orchestrator.py`,
lines 326-766): the fixed welcome when the conversation history (read with
`limit=1`) is empty, otherwise the branch selected by the intent label. -/
def routeToAgent (history : List HistMsg) (intent : IntentType) : RouteReply :=
  if (getConversationHistory history 1).isEmpty then .welcome
  else
    match intent with
    | .greeting => .greetingReply
    | .inquiry => .inquiryReply
    | .ordering => .orderingReply
    | .complaint => .complaintReply
    | .tracking => .trackingReply
    | .remove => .removeReply
    | .queryOrder => .queryOrderReply
    | .confirmOrder => .confirmOrderReply
    | .cancel => .cancelReply
    | .escalate => .escalateReply
    | .farewell => .farewellReply
    | .unclear => .fallbackReply

/-- The reply of one turn: a clarification from the unclear-intent ladder
or an agent reply from routing. -/
inductive TurnReply
  | clarification (tier : ClarifyTier)
  | agentReply (r : RouteReply)
deriving DecidableEq, Repr

/-- The reply computed by `process_message` → `_process_simple_query` →
`_route_to_agent` for one turn (`orchestrator.py`, lines 96-180): the user
message is appended to the history (line 103) before routing; the intent
classifier's output is the oracle pair `(intent, conf)`. -/
def processMessageTurn (history : List HistMsg) (s : SessionCore)
    (message : String) (intent : IntentType) (conf : ℚ) : TurnReply :=
  let h1 := addMessageToHistory history "user" message
  if conf < escalationThreshold then
    .clarification (clarifyTier (s.unclearCount + 1))
  else
    .agentReply (routeToAgent h1 intent)

/-! ## Helper predicates -/

/-- Total quantity held in a draft item list for a given catalog id. -/
def qtyOf (i : String) (items : List LineItem) : ℤ :=
  ((items.filter fun it => it.id == i).map LineItem.quantity).sum

/-- No two line items share a catalog id. -/
def nodupIds (items : List LineItem) : Prop :=
  (items.map LineItem.id).Nodup

/-- The per-draft monetary invariant exactly as the specification words it
(claim C2): the stored tax equals the stored subtotal times the flat 15%
rate, and the stored total re-rounds the stored (already rounded)
components. -/
def specTotalsInvariant (d : Draft) : Prop :=
  d.subtotal = round2 ((d.items.map fun it => it.price * (it.quantity : ℚ)).sum) ∧
  d.tax = d.subtotal * (15/100) ∧
  d.total = round2 (d.subtotal + d.tax + d.deliveryFee)

/-- The monetary invariant the code actually maintains
(`_calculate_totals`): each stored field rounds the corresponding raw
(unrounded) quantity, and the total is computed from the raw subtotal and
raw tax, not from the stored rounded fields. -/
def codeTotalsInvariant (d : Draft) : Prop :=
  d.subtotal = round2 ((d.items.map fun it => it.price * (it.quantity : ℚ)).sum) ∧
  d.tax = round2 (((d.items.map fun it => it.price * (it.quantity : ℚ)).sum) * (15/100)) ∧
  d.deliveryFee = 0 ∧
  d.total = round2 (((d.items.map fun it => it.price * (it.quantity : ℚ)).sum)
    + ((d.items.map fun it => it.price * (it.quantity : ℚ)).sum) * (15/100)
    + d.deliveryFee)

/-! ## Concrete data used by counterexamples and witnesses -/

/-- A line item whose catalog reference has gone away, and a draft holding
it, used to witness the abort path of `submit_order`. -/
def staleItem : LineItem :=
  { id := "9", name := "Ghost Burger", arabicName := "Ghost Burger"
    price := 10, category := "Burgers", quantity := 1 }

/-- A draft whose only line item is stale. -/
def staleDraft : Draft :=
  { items := [staleItem], subtotal := 10, tax := 3/2, deliveryFee := 0
    total := 23/2 }

/-- A catalog item priced 1.14 SAR, used to exercise the rounding of the
15% tax. -/
def item114 : MenuItem :=
  { id := "1", name := "Classic Burger", arabicName := none
    price := 57/50, category := "Burgers", isAvailable := true }

/-- Resolver oracle returning `item114` with full confidence for the
mention "burger" (the behaviour of `_find_menu_item` on an exact name
match). -/
def resolver114 : String → Option (MenuItem × ℚ) :=
  fun s => if s = "burger" then some (item114, 1) else none

/-- The draft produced by adding one `item114`: subtotal 1.14,
tax `round(0.171, 2) = 0.17`, total `round(1.311, 2) = 1.31`. -/
def draft114 : Draft :=
  { items := [lineItemOf item114 1]
    subtotal := 57/50, tax := 17/100, deliveryFee := 0, total := 131/100 }

/-! ## C4 — policy engine determinism -/

/-- Claim C4: The policy engine is a pure function with the stated outcomes:
`resolve(MISSING_ITEM, 30)` refunds the total without escalation,
`resolve(MISSING_ITEM, 80)` escalates with no compensation,
`resolve(LATE_DELIVERY, delay 45, total 100)` credits `min(20, 25) = 20`,
`resolve(LATE_DELIVERY, delay 10, total 100)` credits 0; late delivery
never escalates; wrong order refunds in full exactly when the total is at
most its ceiling 75 and escalates otherwise; quality refunds half exactly
when the total is at most its ceiling 30 and escalates otherwise (30 being
the lower, 75 the higher ceiling); the unlisted category always
escalates. -/
theorem policy_engine_resolution_rules :
    PolicyEngine.resolve 50 .missingItem 30 0 =
      { canAutoResolve := true, compensationAmount := some 30
        requiresEscalation := false } ∧
    PolicyEngine.resolve 50 .missingItem 80 0 =
      { canAutoResolve := false, compensationAmount := none
        requiresEscalation := true } ∧
    PolicyEngine.resolve 50 .lateDelivery 100 45 =
      { canAutoResolve := true, compensationAmount := some 20
        requiresEscalation := false } ∧
    PolicyEngine.resolve 50 .lateDelivery 100 10 =
      { canAutoResolve := true, compensationAmount := some 0
        requiresEscalation := false } ∧
    (∀ (t : ℚ) (dm : ℤ),
      (PolicyEngine.resolve 50 .lateDelivery t dm).requiresEscalation = false) ∧
    (∀ t : ℚ,
      ((PolicyEngine.resolve 50 .wrongOrder t 0).compensationAmount = some t ∧
        (PolicyEngine.resolve 50 .wrongOrder t 0).requiresEscalation = false) ↔
      t ≤ 75) ∧
    (∀ t : ℚ,
      ((PolicyEngine.resolve 50 .wrongOrder t 0).requiresEscalation = true) ↔
      ¬ t ≤ 75) ∧
    (∀ t : ℚ,
      ((PolicyEngine.resolve 50 .quality t 0).compensationAmount
          = some (t * (5/10)) ∧
        (PolicyEngine.resolve 50 .quality t 0).requiresEscalation = false) ↔
      t ≤ 30) ∧
    (∀ t : ℚ,
      ((PolicyEngine.resolve 50 .quality t 0).requiresEscalation = true) ↔
      ¬ t ≤ 30) ∧
    (30 : ℚ) < 75 ∧
    (∀ (t : ℚ) (dm : ℤ),
      (PolicyEngine.resolve 50 .refundRequest t dm).requiresEscalation = true) := by
  refine ⟨by norm_num [PolicyEngine.resolve], by norm_num [PolicyEngine.resolve],
    by norm_num [PolicyEngine.resolve, min_def], by norm_num [PolicyEngine.resolve],
    ?_, ?_, ?_, ?_, ?_, by norm_num, ?_⟩
  · intro t dm
    by_cases h : (30 : ℤ) < dm <;> simp [PolicyEngine.resolve, h]
  · intro t
    by_cases h : t ≤ 75 <;> simp [PolicyEngine.resolve, h]
  · intro t
    by_cases h : t ≤ 75 <;> simp [PolicyEngine.resolve, h]
  · intro t
    by_cases h : t ≤ 30 <;> simp [PolicyEngine.resolve, h]
  · intro t
    by_cases h : t ≤ 30 <;> simp [PolicyEngine.resolve, h]
  · intro t dm
    simp [PolicyEngine.resolve]

/-! ## C10 — complaint path always hits the zero-compensation branch for
late delivery -/

/-- Claim C10: `handle_complaint` invokes the policy engine without a delay
value, so `delay_minutes` takes its default 0 and every LATE_DELIVERY
complaint resolves in the no-compensation branch: compensation 0, no
escalation, whatever the order total (and hence whatever the actual
delay was). -/
theorem handle_complaint_late_delivery_zero_compensation :
    ∀ total : ℚ, handleComplaintPolicy .lateDelivery total =
      { canAutoResolve := true, compensationAmount := some 0
        requiresEscalation := false } := by
  intro total
  rfl

/-! ## C1 — submission atomicity -/

/-- Claim C1: Order submission is atomic: a draft containing a line item whose
catalog reference no longer exists or is unavailable makes `submit_order`
fail, create no order, and leave the draft exactly unchanged; a successful
submission persists every line item and clears the draft; an order is never
persisted with the draft left uncleared; no order is created from an empty
or absent draft; and every failure leaves the session draft exactly as it
was. -/
theorem submit_order_atomic (catalog : List MenuItem)
    (sessionDraft : Option Draft) :
    ((sessionDraft = none ∨ (∃ d, sessionDraft = some d ∧ d.items = [])) →
      (submitOrder catalog sessionDraft).success = false ∧
      (submitOrder catalog sessionDraft).createdOrder = none) ∧
    (∀ d, sessionDraft = some d →
      (∃ it ∈ d.items, availableInCatalog catalog it.id = false) →
      submitOrder catalog sessionDraft =
        { success := false, sessionDraft := sessionDraft
          createdOrder := none }) ∧
    ((submitOrder catalog sessionDraft).success = true →
      ∃ d, sessionDraft = some d ∧ d.items ≠ [] ∧
        (submitOrder catalog sessionDraft).sessionDraft = none ∧
        (submitOrder catalog sessionDraft).createdOrder = some
          { subtotal := d.subtotal, tax := d.tax
            deliveryFee := d.deliveryFee, total := d.total
            items := d.items.map fun it =>
              { menuItemId := it.id, quantity := it.quantity
                unitPrice := it.price } }) ∧
    ((submitOrder catalog sessionDraft).createdOrder ≠ none →
      (submitOrder catalog sessionDraft).sessionDraft = none) ∧
    ((submitOrder catalog sessionDraft).success = false →
      (submitOrder catalog sessionDraft).sessionDraft = sessionDraft) := by
  match sessionDraft with
  | none =>
      refine ⟨fun _ => ⟨rfl, rfl⟩, ?_, ?_, ?_, ?_⟩
      · intro d hd
        exact absurd hd (by simp)
      · intro h
        simp [submitOrder] at h
      · intro h
        simp [submitOrder] at h
      · intro _
        rfl
  | some d =>
      by_cases hempty : d.items = []
      · refine ⟨fun _ => ?_, ?_, ?_, ?_, ?_⟩
        · constructor <;> simp [submitOrder, hempty]
        · intro d2 hd2 ⟨it, hit, _⟩
          obtain rfl : d = d2 := by injection hd2
          rw [hempty] at hit
          exact absurd hit (List.not_mem_nil it)
        · intro h
          simp [submitOrder, hempty] at h
        · intro h
          simp [submitOrder, hempty] at h
        · intro _
          simp [submitOrder, hempty]
      · by_cases hav : d.items.all (fun it => availableInCatalog catalog it.id)
        · refine ⟨?_, ?_, ?_, ?_, ?_⟩
          · rintro (h | ⟨d2, hd2, hd2e⟩)
            · exact absurd h (by simp)
            · obtain rfl : d = d2 := by injection hd2
              exact absurd hd2e hempty
          · intro d2 hd2 ⟨it, hit, hitf⟩
            obtain rfl : d = d2 := by injection hd2
            have := List.all_eq_true.mp hav it hit
            rw [hitf] at this
            exact absurd this (by simp)
          · intro _
            exact ⟨d, rfl, hempty, by simp [submitOrder, hempty, hav],
              by simp [submitOrder, hempty, hav]⟩
          · intro _
            simp [submitOrder, hempty, hav]
          · intro h
            simp [submitOrder, hempty, hav] at h
        · refine ⟨?_, ?_, ?_, ?_, ?_⟩
          · rintro (h | ⟨d2, hd2, hd2e⟩)
            · exact absurd h (by simp)
            · obtain rfl : d = d2 := by injection hd2
              exact absurd hd2e hempty
          · intro d2 hd2 _
            obtain rfl : d = d2 := by injection hd2
            simp [submitOrder, hempty, hav]
          · intro h
            simp [submitOrder, hempty, hav] at h
          · intro h
            simp [submitOrder, hempty, hav] at h
          · intro _
            simp [submitOrder, hempty, hav]

/-- Witness for C1: submitting a draft whose line item no longer exists in
the catalog fails, creates no order and leaves the draft unchanged. -/
theorem submit_order_atomic_witness :
    submitOrder [] (some staleDraft) =
      { success := false, sessionDraft := some staleDraft
        createdOrder := none } :=
  (submit_order_atomic [] (some staleDraft)).2.1 staleDraft rfl
    ⟨staleItem, by simp [staleDraft], rfl⟩

/-! ## C5 — unclear-intent escalation ladder -/

/-- Claim C5: Three consecutive sub-threshold turns drive the unclear counter
0 → 1 → 2 → 3 with responses hint, directive prompt, human-transfer offer;
no sub-threshold turn changes the conversation state; any sub-threshold
turn taken with a counter already at 2 or more offers the human transfer;
and any turn clearing the threshold resets the counter to 0. -/
theorem escalation_ladder (cs : ConversationState) (c1 c2 c3 : ℚ)
    (h1 : c1 < escalationThreshold) (h2 : c2 < escalationThreshold)
    (h3 : c3 < escalationThreshold) :
    confidenceGateStep escalationThreshold c1 ⟨0, cs⟩ =
      (⟨1, cs⟩, .unclear .contextHint) ∧
    confidenceGateStep escalationThreshold c2 ⟨1, cs⟩ =
      (⟨2, cs⟩, .unclear .directivePrompt) ∧
    confidenceGateStep escalationThreshold c3 ⟨2, cs⟩ =
      (⟨3, cs⟩, .unclear .offerHumanTransfer) ∧
    (∀ (n : ℕ) (cs2 : ConversationState) (c : ℚ), c < escalationThreshold →
      2 ≤ n →
      (confidenceGateStep escalationThreshold c ⟨n, cs2⟩).2 =
        .unclear .offerHumanTransfer) ∧
    (∀ (s : SessionCore) (c : ℚ), c < escalationThreshold →
      (confidenceGateStep escalationThreshold c s).1.convState = s.convState) ∧
    (∀ (s : SessionCore) (c : ℚ), escalationThreshold ≤ c →
      (confidenceGateStep escalationThreshold c s).1 = ⟨0, s.convState⟩) := by
  refine ⟨?_, ?_, ?_, ?_, ?_, ?_⟩
  · simp [confidenceGateStep, clarifyTier, h1]
  · simp [confidenceGateStep, clarifyTier, h2]
  · simp [confidenceGateStep, clarifyTier, h3]
  · intro n cs2 c hc hn
    have hn1 : n + 1 ≠ 1 := by omega
    have hn2 : n + 1 ≠ 2 := by omega
    simp [confidenceGateStep, clarifyTier, hc, hn1, hn2]
  · intro s c hc
    simp [confidenceGateStep, hc]
  · intro s c hc
    simp [confidenceGateStep, not_lt.mpr hc]

/-- Witness for C5: with the default threshold 0.6, three turns at
confidences 0.2, 0.5, 0.59 climb the ladder 1 → 2 → 3 ending in the
human-transfer offer, and a turn at confidence 0.95 resets the counter. -/
theorem escalation_ladder_witness :
    confidenceGateStep escalationThreshold (2/10) ⟨0, .greeting⟩ =
      (⟨1, .greeting⟩, .unclear .contextHint) ∧
    confidenceGateStep escalationThreshold (5/10) ⟨1, .greeting⟩ =
      (⟨2, .greeting⟩, .unclear .directivePrompt) ∧
    confidenceGateStep escalationThreshold (59/100) ⟨2, .greeting⟩ =
      (⟨3, .greeting⟩, .unclear .offerHumanTransfer) ∧
    (confidenceGateStep escalationThreshold (95/100) ⟨3, .greeting⟩).1 =
      ⟨0, .greeting⟩ := by
  obtain ⟨a, b, c, -, -, f⟩ :=
    escalation_ladder .greeting (2/10) (5/10) (59/100)
      (by norm_num [escalationThreshold]) (by norm_num [escalationThreshold])
      (by norm_num [escalationThreshold])
  exact ⟨a, b, c, f ⟨3, .greeting⟩ (95/100) (by norm_num [escalationThreshold])⟩

/-! ## C9 — the first-turn welcome branch is unreachable -/

theorem addMessageToHistory_ne_nil (history : List HistMsg)
    (role content : String) (h : content ≠ "") :
    addMessageToHistory history role content ≠ [] := by
  unfold addMessageToHistory
  rw [if_neg h]
  intro hcontra
  simp only [] at hcontra
  split at hcontra
  · rcases List.append_eq_nil.mp hcontra with ⟨h1, -⟩
    rcases List.take_eq_nil_iff.mp h1 with h2 | h2 <;> simp at h2
  · simp at hcontra

theorem routeToAgent_ne_welcome (h1 : List HistMsg) (intent : IntentType)
    (hne : h1 ≠ []) : routeToAgent h1 intent ≠ .welcome := by
  have hcheck : ¬ ((getConversationHistory h1 1).isEmpty = true) := by
    simp only [getConversationHistory, List.isEmpty_eq_true]
    split
    · rename_i hcond
      rw [List.drop_eq_nil_iff]
      omega
    · exact hne
  unfold routeToAgent
  rw [if_neg hcheck]
  cases intent <;> simp

theorem processMessageTurn_ne_welcome (history : List HistMsg)
    (s : SessionCore) (message : String) (intent : IntentType) (conf : ℚ)
    (hmsg : message ≠ "") :
    processMessageTurn history s message intent conf ≠
      .agentReply .welcome := by
  unfold processMessageTurn
  by_cases hc : conf < escalationThreshold
  · simp [hc]
  · rw [if_neg hc]
    have hne := addMessageToHistory_ne_nil history "user" message hmsg
    intro hcontra
    injection hcontra with h
    exact routeToAgent_ne_welcome _ intent hne h

/-- Claim C9, code bug: The spec says the first-ever turn of a session
(empty history) always receives the fixed welcome message regardless of
detected intent.  In the code, `process_message` appends the user message
to the history *before* `_route_to_agent` performs its empty-history
check, so the check never sees an empty history and the welcome branch is
dead: on a fresh session (empty history) a first message confidently
classified as a greeting gets the ordinary greeting reply — and one
classified as ordering goes straight to the order path — never the
welcome. -/
theorem first_turn_welcome_unreachable :
    processMessageTurn [] ⟨0, .greeting⟩ "hello" .greeting (9/10) =
      .agentReply .greetingReply ∧
    processMessageTurn [] ⟨0, .greeting⟩ "hello" .ordering (9/10) =
      .agentReply .orderingReply ∧
    processMessageTurn [] ⟨0, .greeting⟩ "hello" .greeting (9/10) ≠
      .agentReply .welcome := by
  have hconf : ¬ ((9/10 : ℚ) < escalationThreshold) := by
    norm_num [escalationThreshold]
  refine ⟨?_, ?_, processMessageTurn_ne_welcome [] ⟨0, .greeting⟩ "hello"
    .greeting (9/10) (by decide)⟩ <;>
    simp [processMessageTurn, hconf, addMessageToHistory, maxHistoryMessages,
      routeToAgent, getConversationHistory]

/-! ## C2 — draft monetary invariant -/

theorem codeTotalsInvariant_withTotals (l : List LineItem) :
    codeTotalsInvariant (withTotals l) := by
  simp [codeTotalsInvariant, withTotals, calculateTotals]

theorem codeTotalsInvariant_emptyDraft : codeTotalsInvariant emptyDraft := by
  norm_num [codeTotalsInvariant, emptyDraft, round2, roundHalfEven]

/-- Claim C2, counterexample: The add mutation that puts one catalog item
priced 1.14 into an empty session stores subtotal 1.14 and tax 0.17, but
`0.17 ≠ 1.14 × 0.15 = 0.171`: the stored tax is the *rounded* product, so
the claimed equation `tax == subtotal × 15%` fails on this reachable
draft. -/
theorem totals_spec_counterexample :
    (processItemsDirectly resolver114 (fun _ => [])
      [{ name := "burger", quantity := 1 }] none).sessionDraft
        = some draft114 ∧
    ¬ specTotalsInvariant draft114 := by
  constructor
  · norm_num [processItemsDirectly, processMentionStep, resolver114, item114,
      parseQuantity, lineItemOf, displayName, withTotals, calculateTotals,
      round2, roundHalfEven, draft114]
  · intro h
    have h2 := h.2.1
    norm_num [draft114] at h2

/-- Claim C2, amended: After every add or remove mutation the stored
monetary fields satisfy: subtotal = round₂ of the raw item sum,
tax = round₂ of (raw subtotal × 15%), delivery fee = 0, and
total = round₂ of (raw subtotal + raw tax + delivery fee) — i.e. the tax
is rounded after applying the 15% rate, and the total is computed from the
unrounded subtotal and tax, not from the stored rounded fields. -/
theorem totals_invariant_amended
    (resolver : String → Option (MenuItem × ℚ)) (similar : String → List String)
    (hasAdd : Bool) (mentions : List Mention) (sessionDraft : Option Draft) :
    ((processItemsDirectly resolver similar mentions sessionDraft).success
        = true →
      ∃ d, (processItemsDirectly resolver similar mentions
          sessionDraft).sessionDraft = some d ∧ codeTotalsInvariant d) ∧
    ((removeItem resolver hasAdd mentions sessionDraft).success = true →
      ∃ d, (removeItem resolver hasAdd mentions sessionDraft).resultDraft
          = some d ∧ codeTotalsInvariant d) := by
  constructor
  · intro hs
    simp only [processItemsDirectly] at hs ⊢
    split at hs
    · simp at hs
    · rename_i hcond
      rw [if_neg hcond]
      exact ⟨_, rfl, codeTotalsInvariant_withTotals _⟩
  · intro hs
    cases sessionDraft with
    | none => simp [removeItem] at hs
    | some d =>
        simp only [removeItem] at hs ⊢
        split at hs
        · simp at hs
        · rename_i hm
          split at hs
          · simp at hs
          · rename_i hr
            rw [if_neg hm, if_neg hr]
            split
            · exact ⟨_, rfl, codeTotalsInvariant_emptyDraft⟩
            · exact ⟨_, rfl, codeTotalsInvariant_withTotals _⟩

/-- Witness for the amended C2: the concrete add mutation of `item114`
succeeds and its saved draft satisfies the code's monetary invariant. -/
theorem totals_invariant_amended_witness :
    ∃ d, (processItemsDirectly resolver114 (fun _ => [])
      [{ name := "burger", quantity := 1 }] none).sessionDraft = some d ∧
      codeTotalsInvariant d :=
  (totals_invariant_amended resolver114 (fun _ => []) false
    [{ name := "burger", quantity := 1 }] none).1
    (by norm_num [processItemsDirectly, processMentionStep, resolver114,
      item114, parseQuantity, lineItemOf, displayName])

/-! ## C7 — requests with no resolvable mention -/

theorem processMentionStep_no_accept
    (resolver : String → Option (MenuItem × ℚ)) (similar : String → List String)
    (st : AddLoopState) (m : Mention)
    (h : ∀ mi conf, resolver m.name = some (mi, conf) → conf < 85/100) :
    (processMentionStep resolver similar st m).foundItems = st.foundItems ∧
    (processMentionStep resolver similar st m).notFound
      = st.notFound ++ [m.name] ∧
    (processMentionStep resolver similar st m).items = st.items := by
  cases hres : resolver m.name with
  | none => simp [processMentionStep, hres]
  | some p =>
      obtain ⟨mi, conf⟩ := p
      have hconf := h mi conf hres
      by_cases h6 : 6/10 ≤ conf
      · simp [processMentionStep, hres, not_le.mpr hconf, h6]
      · simp [processMentionStep, hres, not_le.mpr hconf, h6]

theorem foldl_no_accept
    (resolver : String → Option (MenuItem × ℚ)) (similar : String → List String)
    (mentions : List Mention) :
    ∀ st : AddLoopState,
    (∀ m ∈ mentions, ∀ mi conf,
      resolver m.name = some (mi, conf) → conf < 85/100) →
    (mentions.foldl (processMentionStep resolver similar) st).foundItems
      = st.foundItems ∧
    (mentions.foldl (processMentionStep resolver similar) st).notFound
      = st.notFound ++ mentions.map Mention.name ∧
    (mentions.foldl (processMentionStep resolver similar) st).items
      = st.items := by
  induction mentions with
  | nil => intro st h; simp
  | cons m ms ih =>
      intro st h
      have hm := processMentionStep_no_accept resolver similar st m
        (h m (by simp))
      have hms := ih (processMentionStep resolver similar st m)
        (fun m2 hm2 => h m2 (by simp [hm2]))
      simp only [List.foldl_cons, List.map_cons]
      refine ⟨?_, ?_, ?_⟩
      · rw [hms.1, hm.1]
      · rw [hms.2.1, hm.2.1, List.append_assoc]
        simp
      · rw [hms.2.2, hm.2.2]

/-- Claim C7, counterexample: An add request with an *empty* mention list
does not fail: starting with no session draft it returns success and saves
the canonical empty draft, mutating the persisted draft from absent to
present — contradicting the claim that such a request fails without
mutating the draft. -/
theorem empty_mention_request_counterexample :
    (processItemsDirectly (fun _ => none) (fun _ => []) [] none).success
      = true ∧
    (processItemsDirectly (fun _ => none) (fun _ => []) [] none).sessionDraft
      = some emptyDraft := by
  constructor
  · simp [processItemsDirectly]
  · norm_num [processItemsDirectly, withTotals, calculateTotals, round2,
      roundHalfEven, emptyDraft]

/-- Claim C7, amended: For every add request with a *non-empty* mention list
in which no mention resolves at auto-accept confidence (each mention either
fails to resolve or resolves below 0.85), the request returns failure and
the persisted draft is not mutated.  (An empty mention list instead
returns success and re-saves the draft, as the counterexample shows.) -/
theorem unresolvable_request_fails_unchanged
    (resolver : String → Option (MenuItem × ℚ)) (similar : String → List String)
    (mentions : List Mention) (sessionDraft : Option Draft)
    (hne : mentions ≠ [])
    (hno : ∀ m ∈ mentions, ∀ mi conf,
      resolver m.name = some (mi, conf) → conf < 85/100) :
    (processItemsDirectly resolver similar mentions sessionDraft).success
      = false ∧
    (processItemsDirectly resolver similar mentions sessionDraft).sessionDraft
      = sessionDraft := by
  simp only [processItemsDirectly]
  obtain ⟨h1, h2, h3⟩ := foldl_no_accept resolver similar mentions
    { items := match sessionDraft with
               | none => []
               | some d => aggregateItems d.items
      foundItems := [], notFound := [], suggestions := [] } hno
  rw [if_pos ⟨h1, by rw [h2]; simp [hne]⟩]
  exact ⟨rfl, rfl⟩

/-- Witness for the amended C7: one unresolvable mention fails and leaves
the (absent) draft untouched. -/
theorem unresolvable_request_fails_unchanged_witness :
    (processItemsDirectly (fun _ => none) (fun _ => [])
      [{ name := "dragon", quantity := 1 }] none).success = false ∧
    (processItemsDirectly (fun _ => none) (fun _ => [])
      [{ name := "dragon", quantity := 1 }] none).sessionDraft = none :=
  unresolvable_request_fails_unchanged (fun _ => none) (fun _ => [])
    [{ name := "dragon", quantity := 1 }] none (by simp)
    (fun m _ mi conf h => absurd h (by simp))

/-! ## C3 — confidence-tiered add decision -/

theorem qtyOf_cons (i : String) (it : LineItem) (rest : List LineItem) :
    qtyOf i (it :: rest) =
      (if it.id = i then it.quantity else 0) + qtyOf i rest := by
  by_cases h : it.id = i <;> simp [qtyOf, List.filter_cons, h]

theorem qtyOf_append (i : String) (l1 l2 : List LineItem) :
    qtyOf i (l1 ++ l2) = qtyOf i l1 + qtyOf i l2 := by
  simp [qtyOf, List.filter_append]

theorem qtyOf_singleton (i : String) (it : LineItem) :
    qtyOf i [it] = if it.id = i then it.quantity else 0 := by
  by_cases h : it.id = i <;> simp [qtyOf, List.filter_cons, h]

theorem qtyOf_bumpFirst (i j : String) (q : ℤ) (l : List LineItem)
    (hmem : l.any (fun it => it.id == j) = true) :
    qtyOf i (bumpFirst j q l) = qtyOf i l + (if j = i then q else 0) := by
  induction l with
  | nil => simp at hmem
  | cons it rest ih =>
      by_cases hid : it.id = j
      · by_cases hji : j = i
        · simp [bumpFirst, hid, qtyOf_cons, hji]
          try ring
        · simp [bumpFirst, hid, qtyOf_cons, hji]
          try ring
      · have hmem2 : rest.any (fun it => it.id == j) = true := by
          rcases List.any_eq_true.mp hmem with ⟨x, hx, hxp⟩
          rcases List.mem_cons.mp hx with rfl | hx2
          · exact absurd (by simpa using hxp) hid
          · exact List.any_eq_true.mpr ⟨x, hx2, hxp⟩
        simp only [bumpFirst, if_neg hid, qtyOf_cons, ih hmem2]
        ring

theorem bumpFirst_map_id (i : String) (q : ℤ) (l : List LineItem) :
    (bumpFirst i q l).map LineItem.id = l.map LineItem.id := by
  induction l with
  | nil => rfl
  | cons it rest ih =>
      by_cases h : it.id = i <;> simp [bumpFirst, h, ih]

theorem bumpFirst_length (i : String) (q : ℤ) (l : List LineItem) :
    (bumpFirst i q l).length = l.length := by
  have h := congrArg List.length (bumpFirst_map_id i q l)
  simpa using h

theorem one_le_parseQuantity (q : ℤ) : 1 ≤ parseQuantity q :=
  le_max_left 1 (min 50 q)

theorem processMentionStep_accept
    (resolver : String → Option (MenuItem × ℚ)) (similar : String → List String)
    (st : AddLoopState) (m : Mention) (mi : MenuItem) (conf : ℚ)
    (hres : resolver m.name = some (mi, conf)) (hconf : 85/100 ≤ conf) :
    (processMentionStep resolver similar st m).items
      = (if st.items.any (fun it => it.id == mi.id) then
           bumpFirst mi.id (parseQuantity m.quantity) st.items
         else st.items ++ [lineItemOf mi (parseQuantity m.quantity)]) ∧
    (processMentionStep resolver similar st m).foundItems
      = st.foundItems ++ [displayName mi] := by
  constructor <;> simp [processMentionStep, hres, hconf]

theorem processMentionStep_accept_qty
    (resolver : String → Option (MenuItem × ℚ)) (similar : String → List String)
    (st : AddLoopState) (m : Mention) (mi : MenuItem) (conf : ℚ)
    (hres : resolver m.name = some (mi, conf)) (hconf : 85/100 ≤ conf) :
    qtyOf mi.id (processMentionStep resolver similar st m).items
      = qtyOf mi.id st.items + parseQuantity m.quantity := by
  rw [(processMentionStep_accept resolver similar st m mi conf hres hconf).1]
  split
  · rename_i hmem
    rw [qtyOf_bumpFirst mi.id mi.id _ _ hmem]
    simp
  · rw [qtyOf_append, qtyOf_singleton]
    simp [lineItemOf]

/-- Claim C3: The per-mention decision of the add path: a resolver match at
confidence ≥ 0.85 is added — merged into the existing line item with the
same catalog id (summing quantities, list length unchanged) when one
exists, appended as a new line item otherwise — and the held quantity for
that id grows by the parsed request quantity (which is at least 1, so the
items do change); a match with 0.6 ≤ confidence < 0.85 leaves the line
items unchanged, is recorded only as a did-you-mean suggestion, and adds
nothing; in particular a mention resolving at exactly 0.85 is auto-added
while one resolving at 0.84 leaves the items unchanged. -/
theorem confidence_tier_decision
    (resolver : String → Option (MenuItem × ℚ)) (similar : String → List String)
    (st : AddLoopState) (m : Mention) (mi : MenuItem) (conf : ℚ)
    (hres : resolver m.name = some (mi, conf)) :
    (85/100 ≤ conf →
      qtyOf mi.id (processMentionStep resolver similar st m).items
        = qtyOf mi.id st.items + parseQuantity m.quantity ∧
      (st.items.any (fun it => it.id == mi.id) = true →
        (processMentionStep resolver similar st m).items
          = bumpFirst mi.id (parseQuantity m.quantity) st.items ∧
        (processMentionStep resolver similar st m).items.length
          = st.items.length) ∧
      (st.items.any (fun it => it.id == mi.id) = false →
        (processMentionStep resolver similar st m).items
          = st.items ++ [lineItemOf mi (parseQuantity m.quantity)])) ∧
    (6/10 ≤ conf → conf < 85/100 →
      (processMentionStep resolver similar st m).items = st.items ∧
      (processMentionStep resolver similar st m).suggestions
        = st.suggestions ++ [displayName mi] ∧
      (processMentionStep resolver similar st m).foundItems
        = st.foundItems) ∧
    (qtyOf mi.id (processMentionStep (fun _ => some (mi, 85/100)) similar
        st m).items
      = qtyOf mi.id st.items + parseQuantity m.quantity ∧
      1 ≤ parseQuantity m.quantity) ∧
    (processMentionStep (fun _ => some (mi, 84/100)) similar st m).items
      = st.items := by
  refine ⟨?_, ?_, ?_, ?_⟩
  · intro hconf
    refine ⟨processMentionStep_accept_qty resolver similar st m mi conf
      hres hconf, ?_, ?_⟩
    · intro hmem
      have h := (processMentionStep_accept resolver similar st m mi conf
        hres hconf).1
      rw [hmem] at h
      simp only [if_true] at h
      exact ⟨h, by rw [h, bumpFirst_length]⟩
    · intro hmem
      have h := (processMentionStep_accept resolver similar st m mi conf
        hres hconf).1
      rw [hmem] at h
      simpa using h
  · intro h6 h85
    refine ⟨?_, ?_, ?_⟩ <;> simp [processMentionStep, hres, not_le.mpr h85, h6]
  · refine ⟨processMentionStep_accept_qty _ similar st m mi (85/100) rfl
      le_rfl, one_le_parseQuantity m.quantity⟩
  · have h85 : ¬ ((85:ℚ)/100 ≤ 84/100) := by norm_num
    have h6 : (6:ℚ)/10 ≤ 84/100 := by norm_num
    simp [processMentionStep, h85, h6]

/-- Witness for C3: with a resolver matching "cola" at confidence 0.85 the
mention is added to an empty item list, and at confidence 0.84 it is
not. -/
theorem confidence_tier_decision_witness :
    qtyOf item114.id (processMentionStep (fun _ => some (item114, 85/100))
        (fun _ => []) { items := [], foundItems := [], notFound := []
                        suggestions := [] }
        { name := "burger", quantity := 2 }).items
      = qtyOf item114.id [] + parseQuantity 2 ∧
    (processMentionStep (fun _ => some (item114, 84/100)) (fun _ => [])
        { items := [], foundItems := [], notFound := [], suggestions := [] }
        { name := "burger", quantity := 2 }).items = [] := by
  have h := confidence_tier_decision (fun _ => some (item114, 85/100))
    (fun _ => []) { items := [], foundItems := [], notFound := []
                    suggestions := [] }
    { name := "burger", quantity := 2 } item114 (85/100) rfl
  exact ⟨(h.1 (le_refl _)).1, h.2.2.2⟩

/-! ## C6 — no duplicate catalog ids in any draft -/

theorem nodupIds_append_new (l : List LineItem) (it : LineItem)
    (h : nodupIds l) (hmem : l.any (fun a => a.id == it.id) = false) :
    nodupIds (l ++ [it]) := by
  unfold nodupIds at *
  rw [List.map_append, List.map_singleton, List.nodup_append]
  refine ⟨h, List.nodup_singleton _, ?_⟩
  intro a ha hb
  rw [List.mem_singleton] at hb
  subst hb
  rw [List.mem_map] at ha
  obtain ⟨x, hx, hxid⟩ := ha
  have htrue : l.any (fun a => a.id == it.id) = true :=
    List.any_eq_true.mpr ⟨x, hx, by simp [hxid]⟩
  rw [hmem] at htrue
  exact Bool.false_ne_true htrue

theorem nodupIds_bumpFirst (i : String) (q : ℤ) (l : List LineItem)
    (h : nodupIds l) : nodupIds (bumpFirst i q l) := by
  unfold nodupIds at *
  rw [bumpFirst_map_id]
  exact h

theorem decFirst_map_id (i : String) (q : ℤ) (l : List LineItem) :
    (decFirst i q l).map LineItem.id = l.map LineItem.id := by
  induction l with
  | nil => rfl
  | cons it rest ih =>
      by_cases h : it.id = i <;> simp [decFirst, h, ih]

theorem nodupIds_decFirst (i : String) (q : ℤ) (l : List LineItem)
    (h : nodupIds l) : nodupIds (decFirst i q l) := by
  unfold nodupIds at *
  rw [decFirst_map_id]
  exact h

theorem removeFirst_sublist (i : String) (l : List LineItem) :
    List.Sublist (removeFirst i l) l := by
  induction l with
  | nil => simp [removeFirst]
  | cons it rest ih =>
      by_cases h : it.id = i
      · simp only [removeFirst, if_pos h]
        exact List.sublist_cons_self it rest
      · simp only [removeFirst, if_neg h]
        exact ih.cons₂ it

theorem nodupIds_removeFirst (i : String) (l : List LineItem)
    (h : nodupIds l) : nodupIds (removeFirst i l) :=
  List.Nodup.sublist ((removeFirst_sublist i l).map LineItem.id) h

theorem nodupIds_insertAgg (acc : List LineItem) (item : LineItem)
    (h : nodupIds acc) : nodupIds (insertAgg acc item) := by
  unfold insertAgg
  split
  · exact nodupIds_bumpFirst _ _ _ h
  · rename_i hmem
    exact nodupIds_append_new acc item h (by simpa using hmem)

theorem nodupIds_foldl_insertAgg (l : List LineItem) :
    ∀ acc, nodupIds acc → nodupIds (l.foldl insertAgg acc) := by
  induction l with
  | nil => intro acc h; exact h
  | cons x xs ih => intro acc h; exact ih _ (nodupIds_insertAgg acc x h)

theorem nodupIds_aggregateItems (l : List LineItem) :
    nodupIds (aggregateItems l) :=
  nodupIds_foldl_insertAgg l [] (by simp [nodupIds])

theorem qtyOf_insertAgg (i : String) (acc : List LineItem)
    (item : LineItem) :
    qtyOf i (insertAgg acc item) = qtyOf i acc + qtyOf i [item] := by
  unfold insertAgg
  split
  · rename_i hmem
    rw [qtyOf_bumpFirst i item.id item.quantity acc hmem, qtyOf_singleton]
  · rw [qtyOf_append]

theorem qtyOf_foldl_insertAgg (i : String) (l : List LineItem) :
    ∀ acc, qtyOf i (l.foldl insertAgg acc) = qtyOf i acc + qtyOf i l := by
  induction l with
  | nil => intro acc; simp [qtyOf]
  | cons x xs ih =>
      intro acc
      rw [List.foldl_cons, ih, qtyOf_insertAgg, qtyOf_singleton, qtyOf_cons]
      simp [qtyOf]
      ring

theorem qtyOf_aggregateItems (i : String) (l : List LineItem) :
    qtyOf i (aggregateItems l) = qtyOf i l := by
  unfold aggregateItems
  rw [qtyOf_foldl_insertAgg]
  simp [qtyOf]

theorem nodupIds_processMentionStep
    (resolver : String → Option (MenuItem × ℚ)) (similar : String → List String)
    (st : AddLoopState) (m : Mention) (h : nodupIds st.items) :
    nodupIds (processMentionStep resolver similar st m).items := by
  cases hres : resolver m.name with
  | none => simpa [processMentionStep, hres] using h
  | some p =>
      obtain ⟨mi, conf⟩ := p
      by_cases h85 : 85/100 ≤ conf
      · by_cases hmem : st.items.any (fun it => it.id == mi.id) = true
        · simpa [processMentionStep, hres, h85, hmem] using
            nodupIds_bumpFirst mi.id (parseQuantity m.quantity) st.items h
        · have hmem2 : st.items.any (fun it => it.id == mi.id) = false :=
            Bool.eq_false_iff.mpr hmem
          have hnew : nodupIds (st.items ++
              [lineItemOf mi (parseQuantity m.quantity)]) :=
            nodupIds_append_new st.items _ h (by simpa [lineItemOf] using hmem2)
          simpa [processMentionStep, hres, h85, hmem2] using hnew
      · by_cases h6 : 6/10 ≤ conf
        · simpa [processMentionStep, hres, h85, h6] using h
        · simpa [processMentionStep, hres, h85, h6] using h

theorem nodupIds_foldl_processMentionStep
    (resolver : String → Option (MenuItem × ℚ)) (similar : String → List String)
    (mentions : List Mention) :
    ∀ st : AddLoopState, nodupIds st.items →
      nodupIds ((mentions.foldl (processMentionStep resolver similar)
        st).items) := by
  induction mentions with
  | nil => intro st h; exact h
  | cons m ms ih =>
      intro st h
      exact ih _ (nodupIds_processMentionStep resolver similar st m h)

theorem nodupIds_removeMentionStep
    (resolver : String → Option (MenuItem × ℚ)) (st : RemoveLoopState)
    (m : Mention) (h : nodupIds st.items) :
    nodupIds (removeMentionStep resolver st m).items := by
  cases hres : resolver m.name with
  | none => simpa [removeMentionStep, hres] using h
  | some p =>
      obtain ⟨mi, conf⟩ := p
      cases hfind : st.items.find? (fun it => it.id == mi.id) with
      | none => simpa [removeMentionStep, hres, hfind] using h
      | some existing =>
          by_cases hq : existing.quantity ≤ parseQuantity m.quantity
          · simpa [removeMentionStep, hres, hfind, hq] using
              nodupIds_removeFirst mi.id st.items h
          · simpa [removeMentionStep, hres, hfind, hq] using
              nodupIds_decFirst mi.id (parseQuantity m.quantity) st.items h

theorem nodupIds_foldl_removeMentionStep
    (resolver : String → Option (MenuItem × ℚ)) (mentions : List Mention) :
    ∀ st : RemoveLoopState, nodupIds st.items →
      nodupIds ((mentions.foldl (removeMentionStep resolver) st).items) := by
  induction mentions with
  | nil => intro st h; exact h
  | cons m ms ih =>
      intro st h
      exact ih _ (nodupIds_removeMentionStep resolver st m h)

/-- Claim C6: No two line items of a draft share a catalog id: every draft
saved by the add path has pairwise-distinct item ids (duplicate ids in a
loaded draft are aggregated, summing quantities, before processing —
conjunct 3), the remove path preserves distinctness, and adding the same
catalog item in two separate add calls yields a single line item holding
the summed quantity, not two entries. -/
theorem draft_no_duplicate_ids :
    (∀ (resolver : String → Option (MenuItem × ℚ))
      (similar : String → List String) (mentions : List Mention)
      (sessionDraft : Option Draft) (d : Draft),
      (processItemsDirectly resolver similar mentions sessionDraft).success
        = true →
      (processItemsDirectly resolver similar mentions
        sessionDraft).sessionDraft = some d →
      nodupIds d.items) ∧
    (∀ (resolver : String → Option (MenuItem × ℚ)) (hasAdd : Bool)
      (mentions : List Mention) (d d2 : Draft),
      nodupIds d.items →
      (removeItem resolver hasAdd mentions (some d)).resultDraft = some d2 →
      nodupIds d2.items) ∧
    (∀ l : List LineItem, nodupIds (aggregateItems l) ∧
      ∀ i, qtyOf i (aggregateItems l) = qtyOf i l) ∧
    (∀ (mi : MenuItem) (similar : String → List String) (q1 q2 : ℤ)
      (n1 n2 : String),
      (processItemsDirectly (fun _ => some (mi, 1)) similar
        [{ name := n2, quantity := q2 }]
        (processItemsDirectly (fun _ => some (mi, 1)) similar
          [{ name := n1, quantity := q1 }] none).sessionDraft).sessionDraft
        = some (withTotals
            [lineItemOf mi (parseQuantity q1 + parseQuantity q2)])) := by
  refine ⟨?_, ?_, ?_, ?_⟩
  · intro resolver similar mentions sessionDraft d hs hd
    cases sessionDraft with
    | none =>
        simp only [processItemsDirectly] at hs hd
        split at hs
        · simp at hs
        · rename_i hcond
          rw [if_neg hcond] at hd
          have hd2 := Option.some.inj hd
          rw [← hd2]
          exact nodupIds_foldl_processMentionStep resolver similar mentions
            { items := [], foundItems := [], notFound := []
              suggestions := [] } (by simp [nodupIds])
    | some d0 =>
        simp only [processItemsDirectly] at hs hd
        split at hs
        · simp at hs
        · rename_i hcond
          rw [if_neg hcond] at hd
          have hd2 := Option.some.inj hd
          rw [← hd2]
          exact nodupIds_foldl_processMentionStep resolver similar mentions
            { items := aggregateItems d0.items, foundItems := []
              notFound := [], suggestions := [] }
            (nodupIds_aggregateItems d0.items)
  · intro resolver hasAdd mentions d d2 hnd hd
    simp only [removeItem] at hd
    split at hd
    · simp at hd
    · split at hd
      · simp at hd
      · have hd2 := Option.some.inj hd
        rw [← hd2]
        split
        · simp [nodupIds, emptyDraft]
        · exact nodupIds_foldl_removeMentionStep resolver mentions
            { items := d.items, removed := [], notFound := [] } hnd
  · intro l
    exact ⟨nodupIds_aggregateItems l, fun i => qtyOf_aggregateItems i l⟩
  · intro mi similar q1 q2 n1 n2
    have hc : (85:ℚ)/100 ≤ 1 := by norm_num
    have h1 : (processItemsDirectly (fun _ => some (mi, 1)) similar
        [{ name := n1, quantity := q1 }] none).sessionDraft
        = some (withTotals [lineItemOf mi (parseQuantity q1)]) := by
      simp [processItemsDirectly, processMentionStep, hc]
    rw [h1]
    simp [processItemsDirectly, processMentionStep, hc, aggregateItems,
      insertAgg, bumpFirst, lineItemOf, withTotals]

/-- Witness for C6: the saved draft of the concrete `item114` add call has
pairwise-distinct catalog ids, with the success and saved-draft hypotheses
discharged by evaluation. -/
theorem draft_no_duplicate_ids_witness :
    nodupIds draft114.items :=
  draft_no_duplicate_ids.1 resolver114 (fun _ => [])
    [{ name := "burger", quantity := 1 }] none draft114
    (by norm_num [processItemsDirectly, processMentionStep, resolver114,
      item114, parseQuantity, lineItemOf, displayName])
    (by norm_num [processItemsDirectly, processMentionStep, resolver114,
      item114, parseQuantity, lineItemOf, displayName, withTotals,
      calculateTotals, round2, roundHalfEven, draft114])

/-! ## C8 — removal semantics -/

theorem mem_decFirst_quantity (i : String) (q : ℤ) (l : List LineItem)
    (ex : LineItem) (hfind : l.find? (fun it => it.id == i) = some ex)
    (hq : q < ex.quantity) (hpos : ∀ it ∈ l, 1 ≤ it.quantity) :
    ∀ it ∈ decFirst i q l, 1 ≤ it.quantity := by
  induction l with
  | nil => simp [decFirst]
  | cons x rest ih =>
      by_cases hx : x.id = i
      · have hex : x = ex := by
          rw [List.find?_cons_of_pos _ (by simp [hx])] at hfind
          exact Option.some.inj hfind
        subst hex
        simp only [decFirst, if_pos hx]
        intro it hit
        rcases List.mem_cons.mp hit with rfl | h2
        · show 1 ≤ x.quantity - q
          omega
        · exact hpos it (List.mem_cons_of_mem x h2)
      · have hfind2 : rest.find? (fun it => it.id == i) = some ex := by
          rwa [List.find?_cons_of_neg _ (by simp [hx])] at hfind
        simp only [decFirst, if_neg hx]
        intro it hit
        rcases List.mem_cons.mp hit with rfl | h2
        · exact hpos it (List.mem_cons_self it rest)
        · exact ih hfind2 (fun y hy => hpos y (List.mem_cons_of_mem x hy))
            it h2

theorem removeMentionStep_pos
    (resolver : String → Option (MenuItem × ℚ)) (st : RemoveLoopState)
    (m : Mention) (hpos : ∀ it ∈ st.items, 1 ≤ it.quantity) :
    ∀ it ∈ (removeMentionStep resolver st m).items, 1 ≤ it.quantity := by
  cases hres : resolver m.name with
  | none => simpa [removeMentionStep, hres] using hpos
  | some p =>
      obtain ⟨mi, conf⟩ := p
      cases hfind : st.items.find? (fun it => it.id == mi.id) with
      | none => simpa [removeMentionStep, hres, hfind] using hpos
      | some existing =>
          by_cases hq : existing.quantity ≤ parseQuantity m.quantity
          · intro it hit
            have hit2 : it ∈ st.items :=
              (removeFirst_sublist mi.id st.items).subset
                (by simpa [removeMentionStep, hres, hfind, hq] using hit)
            exact hpos it hit2
          · intro it hit
            have hit2 : it ∈ decFirst mi.id (parseQuantity m.quantity)
                st.items := by
              simpa [removeMentionStep, hres, hfind, hq] using hit
            exact mem_decFirst_quantity mi.id (parseQuantity m.quantity)
              st.items existing hfind (not_le.mp hq) hpos it hit2

theorem foldl_removeMentionStep_pos
    (resolver : String → Option (MenuItem × ℚ)) (mentions : List Mention) :
    ∀ st : RemoveLoopState, (∀ it ∈ st.items, 1 ≤ it.quantity) →
    ∀ it ∈ (mentions.foldl (removeMentionStep resolver) st).items,
      1 ≤ it.quantity := by
  induction mentions with
  | nil => intro st h; exact h
  | cons m ms ih =>
      intro st h
      exact ih _ (removeMentionStep_pos resolver st m h)

/-- Claim C8: On the remove path, for every located line item: a requested
removal quantity at least the current quantity deletes the line item
entirely, a smaller one decrements the quantity by the requested amount;
starting from a draft whose quantities are all at least 1, every surviving
line item still has quantity at least 1 (never zero or negative); and if
the item list has become empty, the returned draft is the canonical empty
shape (empty items, all four monetary fields zero) rather than null. -/
theorem remove_item_semantics :
    (∀ (resolver : String → Option (MenuItem × ℚ)) (st : RemoveLoopState)
      (m : Mention) (mi : MenuItem) (conf : ℚ) (existing : LineItem),
      resolver m.name = some (mi, conf) →
      st.items.find? (fun it => it.id == mi.id) = some existing →
      ((existing.quantity ≤ parseQuantity m.quantity →
        (removeMentionStep resolver st m).items
          = removeFirst mi.id st.items) ∧
       (parseQuantity m.quantity < existing.quantity →
        (removeMentionStep resolver st m).items
          = decFirst mi.id (parseQuantity m.quantity) st.items))) ∧
    (∀ (resolver : String → Option (MenuItem × ℚ)) (hasAdd : Bool)
      (mentions : List Mention) (d : Draft),
      (∀ it ∈ d.items, 1 ≤ it.quantity) →
      ∀ d2, (removeItem resolver hasAdd mentions (some d)).resultDraft
          = some d2 →
        (∀ it ∈ d2.items, 1 ≤ it.quantity) ∧
        (d2.items = [] → d2 = emptyDraft)) := by
  constructor
  · intro resolver st m mi conf existing hres hfind
    constructor
    · intro hq
      simp [removeMentionStep, hres, hfind, hq]
    · intro hq
      simp [removeMentionStep, hres, hfind, not_le.mpr hq]
  · intro resolver hasAdd mentions d hpos d2 hd
    simp only [removeItem] at hd
    split at hd
    · simp at hd
    · split at hd
      · simp at hd
      · have hd2 := Option.some.inj hd
        rw [← hd2]
        constructor
        · split
          · simp [emptyDraft]
          · exact foldl_removeMentionStep_pos resolver mentions
              { items := d.items, removed := [], notFound := [] } hpos
        · split
          · intro _
            rfl
          · rename_i hne
            intro hitems
            exact absurd hitems hne

/-- Witness for C8: removing 2 of a line item holding 5 decrements it;
the hypotheses (resolver match, item located, 2 < 5) are discharged at
concrete values. -/
theorem remove_item_semantics_witness :
    (removeMentionStep (fun _ => some (item114, 1))
      { items := [lineItemOf item114 5], removed := [], notFound := [] }
      { name := "burger", quantity := 2 }).items
      = decFirst item114.id (parseQuantity 2) [lineItemOf item114 5] :=
  ((remove_item_semantics.1 (fun _ => some (item114, 1))
      { items := [lineItemOf item114 5], removed := [], notFound := [] }
      { name := "burger", quantity := 2 } item114 1 (lineItemOf item114 5)
      rfl (by simp [lineItemOf])).2) (by norm_num [parseQuantity, lineItemOf])
